import Mathlib

/-!
Verification of the browser client of the tts-voice-app repository.

The definitions below are a shallow embedding of the JavaScript client code:

* `src/frontend/shared/api_client.js` (class `VoiceAPIClient`):
  `constructor`, `request`, `textToSpeech`, `voiceConversion`, `getProfiles`,
  `getAudioUrl`, `arrayBufferToBase64`;
* `src/frontend/react_app/src/components/FileUpload.jsx`:
  `validateFile`, `handleFileInput`;
* `src/frontend/react_app/src/components/VCForm.jsx`:
  `loadProfiles`, `handleSubmit` preconditions;
* `src/frontend/react_app/src/pages/TTSPage.jsx` and `VCPage.jsx`:
  `handleResult` / `handleError` state updates;
* `src/components/TTSForm.jsx` (shipped inside `src/AI_Models_Taxonomy.md`
  after the document separator): the speed range input and its state.

JavaScript strings are embedded as Lean `String` (or `List Char` where the
code manipulates individual characters), byte arrays (`Uint8Array`) as
`List Nat` with every element below 256, JavaScript numbers as `Rat` (no
float rounding is exercised by the modelled code), and absent (`undefined`)
object fields as `Option`.  `window.btoa` is the standard base64 encoding of
a latin-1 string, spelled out byte by byte below; the matching decoder
`b64decodeList` is the receiving side of the round-trip law.
-/

namespace VoiceApp

/-! ## Base64 (`arrayBufferToBase64`, api_client.js lines 155-163) -/

/-- The base64 alphabet used by `window.btoa`: index `n` holds the digit for
the six-bit value `n`. -/
def b64Alphabet : List Char :=
  [ 'A', 'B', 'C', 'D', 'E', 'F', 'G', 'H', 'I', 'J', 'K', 'L', 'M',
    'N', 'O', 'P', 'Q', 'R', 'S', 'T', 'U', 'V', 'W', 'X', 'Y', 'Z',
    'a', 'b', 'c', 'd', 'e', 'f', 'g', 'h', 'i', 'j', 'k', 'l', 'm',
    'n', 'o', 'p', 'q', 'r', 's', 't', 'u', 'v', 'w', 'x', 'y', 'z',
    '0', '1', '2', '3', '4', '5', '6', '7', '8', '9', '+', '/' ]

/-- Digit character for a six-bit value. -/
def b64Char (n : Nat) : Char := b64Alphabet.getD n 'A'

/-- Six-bit value of a base64 digit character (decoder side). -/
def b64Val (c : Char) : Nat := b64Alphabet.indexOf c

/-- Base64 encoding of a byte list, three bytes to four digits, with `=`
padding for a trailing group of one or two bytes.  This is the value
`window.btoa(binary)` computes when `binary` holds the bytes as char codes. -/
def b64encodeList : List Nat → List Char
  | [] => []
  | [a] =>
      [ b64Char (a / 4), b64Char (a % 4 * 16), '=', '=']
  | [a, b] =>
      [ b64Char (a / 4), b64Char (a % 4 * 16 + b / 16), b64Char (b % 16 * 4), '=']
  | a :: b :: c :: rest =>
      b64Char (a / 4) :: b64Char (a % 4 * 16 + b / 16) ::
      b64Char (b % 16 * 4 + c / 64) :: b64Char (c % 64) :: b64encodeList rest

/-- Base64 decoding (the receiving side of the round-trip requirement):
four digits back to three bytes, a `=` in the third or fourth position
ending the data after one or two bytes. -/
def b64decodeList : List Char → List Nat
  | s0 :: s1 :: s2 :: s3 :: rest =>
      if s2 = '=' then
        [ b64Val s0 * 4 + b64Val s1 / 16]
      else if s3 = '=' then
        [ b64Val s0 * 4 + b64Val s1 / 16, b64Val s1 % 16 * 16 + b64Val s2 / 4]
      else
        (b64Val s0 * 4 + b64Val s1 / 16) ::
        (b64Val s1 % 16 * 16 + b64Val s2 / 4) ::
        (b64Val s2 % 4 * 64 + b64Val s3) :: b64decodeList rest
  | _ => []

/-- `window.btoa`: base64 over the char codes of a latin-1 string. -/
def btoa (binary : List Char) : String :=
  String.mk (b64encodeList (binary.map Char.toNat))

/-- api_client.js lines 155-163: build the string whose char at `i` is
`String.fromCharCode(bytes[i])`, then `window.btoa` it. -/
def arrayBufferToBase64 (buffer : List Nat) : String :=
  btoa (buffer.map Char.ofNat)

/-- Decoding the transported text back to bytes (`atob` plus char codes). -/
def atobBytes (s : String) : List Nat :=
  b64decodeList s.data

/-- The 50 MB upload ceiling (FileUpload.jsx line 52). -/
def sizeCeiling : Nat := 50 * 1024 * 1024

/-! ## HTTP client wrapper (`request`, api_client.js lines 16-33) -/

/-- A fetch `Response` as far as `request` inspects it: the `ok` flag,
`status`, `statusText`, and the outcome of `await response.json()`
(`Except.error` when the body is not valid JSON and the promise rejects). -/
structure FetchResponse (α : Type) where
  ok : Bool
  status : Nat
  statusText : String
  json : Except String α

/-- What `await fetch(url, config)` can do: reject with a network error, or
resolve with a response. -/
inductive FetchOutcome (α : Type) where
  | networkError (message : String)
  | response (r : FetchResponse α)

/-- The value `request` returns to its caller: a parsed JSON body, or the
uniform failure object with an `error` field. -/
inductive RequestOutcome (α : Type) where
  | body (value : α)
  | errorObject (message : String)
deriving DecidableEq

/-- api_client.js lines 23-32: inside `try`, a non-ok response throws
`HTTP status: statusText`; the `catch` turns any thrown error (network
failure, the HTTP throw, or a JSON parse rejection) into the failure
object. -/
def request {α : Type} (fetch : FetchOutcome α) : RequestOutcome α :=
  match fetch with
  | .networkError m => .errorObject m
  | .response r =>
      if r.ok then
        match r.json with
        | .ok v => .body v
        | .error m => .errorObject m
      else .errorObject ("HTTP " ++ toString r.status ++ ": " ++ r.statusText)

/-- api_client.js lines 7-10. -/
def defaultHeaders : List (String × String) :=
  [("Content-Type", "application/json"), ("User-Agent", "VoiceApp-WebClient/1.0")]

/-- Property read `obj[k]` on an object embedded as a key-value list. -/
def lookupKey {α : Type} (obj : List (String × α)) (k : String) : Option α :=
  (obj.find? (fun p => p.1 == k)).map Prod.snd

/-- JavaScript object spread `\x7b ...a, ...b \x7d`: keys of `b` override
keys of `a`. -/
def objSpread {α : Type} (a b : List (String × α)) : List (String × α) :=
  a.filter (fun p => (lookupKey b p.1).isNone) ++ b

/-- api_client.js lines 18-21: the `headers` key of `config`.  The literal
first sets `headers` to the merge of the defaults with `options.headers`,
but then spreads `...options` over it, so an options object that has a
`headers` key overwrites the merged value with `options.headers` alone. -/
def configHeaders (callerHeaders : Option (List (String × String))) :
    List (String × String) :=
  let merged := objSpread defaultHeaders (callerHeaders.getD [])
  match callerHeaders with
  | none => merged
  | some h => h

/-! ## File validation (FileUpload.jsx lines 44-58) -/

/-- The two properties of a `File` object that validation reads. -/
structure JSFile where
  type : String
  size : Nat
deriving DecidableEq

/-- FileUpload.jsx line 45 (the `flac`-included allow-list). -/
def validTypes : List String :=
  ["audio/wav", "audio/mp3", "audio/ogg", "audio/m4a", "audio/flac"]

/-- FileUpload.jsx lines 44-58: reject a type outside the allow-list, then
reject a size over 50 MB, else accept.  The `alert` calls are UI-only. -/
def validateFile (file : JSFile) : Bool :=
  if !(validTypes.contains file.type) then false
  else if file.size > 50 * 1024 * 1024 then false
  else true

/-- FileUpload.jsx lines 33-42: take the first chosen file; only when it
validates, store it and hand it to `onFileSelect` (second component), which
is the only path toward an upload. -/
def handleFileInput (selected : Option JSFile) (files : List JSFile) :
    Option JSFile × Option JSFile :=
  match files with
  | [] => (selected, none)
  | file :: _ =>
      if validateFile file then (some file, some file) else (selected, none)

/-! ## TTS request building (`textToSpeech`, api_client.js lines 45-57) -/

/-- The option fields `textToSpeech` reads; `none` embeds an absent
(`undefined`) field. -/
structure TTSOptions where
  speakerId : Option String := none
  language : Option String := none
  speed : Option Rat := none

/-- The JSON payload posted to `/api/v1/tts`. -/
structure TTSPayload where
  text : String
  speaker_id : String
  language : String
  speed : Rat
deriving DecidableEq

/-- JavaScript `x || d` for a string field: `d` when `x` is absent or falsy
(the empty string). -/
def orDefaultStr (x : Option String) (d : String) : String :=
  match x with
  | some s => if s = "" then d else s
  | none => d

/-- JavaScript `x || d` for a numeric field: `d` when `x` is absent or falsy
(zero). -/
def orDefaultNum (x : Option Rat) (d : Rat) : Rat :=
  match x with
  | some q => if q = 0 then d else q
  | none => d

/-- api_client.js lines 46-51: the payload literal of `textToSpeech`. -/
def textToSpeechPayload (text : String) (options : TTSOptions) : TTSPayload :=
  { text := text
    speaker_id := orDefaultStr options.speakerId "default"
    language := orDefaultStr options.language "zh"
    speed := orDefaultNum options.speed 1 }

/-- TTSForm.jsx (embedded in src/AI_Models_Taxonomy.md after the document
separator): `min="0.5"` of the speed range input. -/
def ttsSpeedMin : Rat := 1 / 2

/-- TTSForm.jsx: `max="2.0"` of the speed range input. -/
def ttsSpeedMax : Rat := 2

/-- TTSForm.jsx: `step="0.1"` of the speed range input. -/
def ttsSpeedStep : Rat := 1 / 10

/-- TTSForm.jsx: the speed control is the HTML range input
`input type="range" min="0.5" max="2.0" step="0.1"`, whose `onChange`
stores `parseFloat(e.target.value)` in the `speed` state (initialized at
1.0, itself on the grid).  Like `window.btoa`, the element is a browser
built-in: its value sanitization keeps `e.target.value` inside
[min, max] and on the step grid anchored at min (out-of-range or
off-grid assignments go to the nearest allowed notch; dragging only
produces notch values).  This function is that sanitization: clamp into
[min, max], then snap to the nearest multiple of step above min. -/
def speedRangeValue (raw : Rat) : Rat :=
  ttsSpeedMin +
    ttsSpeedStep *
      round ((max ttsSpeedMin (min ttsSpeedMax raw) - ttsSpeedMin) / ttsSpeedStep)

/-! ## Speaker profiles (`getProfiles`, api_client.js lines 92-94; VCForm.jsx) -/

/-- A speaker profile as the client reads it. -/
structure SpeakerProfile where
  id : String
  name : String
deriving DecidableEq

/-- A successful body of `GET /api/v1/profiles` as `loadProfiles` reads it:
`profiles` is `none` when the body has no such field. -/
structure ProfilesBody where
  profiles : Option (List SpeakerProfile)
deriving DecidableEq

/-- api_client.js lines 92-94: `getProfiles` just delegates to `request`. -/
def getProfiles (fetch : FetchOutcome ProfilesBody) : RequestOutcome ProfilesBody :=
  request fetch

/-- The JavaScript property read `result.profiles`: `undefined` on the
failure object (which has only an `error` field). -/
def profilesOf (result : RequestOutcome ProfilesBody) : Option (List SpeakerProfile) :=
  match result with
  | .body b => b.profiles
  | .errorObject _ => none

/-- The `VCForm` component state touched by `loadProfiles` and
`handleSubmit` (VCForm.jsx lines 7-11). -/
structure VCFormState where
  sourceFile : Option JSFile
  targetSpeaker : String
  preservePitch : Bool
  profiles : List SpeakerProfile
deriving DecidableEq

/-- VCForm.jsx lines 7-11: initial `useState` values. -/
def initialVCFormState : VCFormState :=
  { sourceFile := none, targetSpeaker := "", preservePitch := true, profiles := [] }

/-- VCForm.jsx lines 17-29: when `result.profiles` is present (an array is
truthy even when empty) store it, and point `targetSpeaker` at the first
profile when there is one; otherwise change nothing. -/
def loadProfiles (st : VCFormState) (result : RequestOutcome ProfilesBody) :
    VCFormState :=
  match profilesOf result with
  | some ps =>
      { st with
        profiles := ps
        targetSpeaker :=
          match ps.head? with
          | some p => p.id
          | none => st.targetSpeaker }
  | none => st

/-- VCForm.jsx lines 31-42: the validation guards of `handleSubmit`; the
returned message is the `onError` argument when submission is refused,
`none` when the request proceeds. -/
def vcHandleSubmitGuard (st : VCFormState) : Option String :=
  if st.sourceFile = none then some "Please select an audio file"
  else if st.targetSpeaker = "" then some "Please select a target speaker"
  else none

/-! ## Voice-conversion payload (`voiceConversion`, api_client.js lines 62-87) -/

/-- JSON values appearing in the `voiceConversion` payload. -/
inductive JsonValue where
  | str (s : String)
  | bool (b : Bool)
deriving DecidableEq

/-- api_client.js lines 71-75: the payload literal, with the file bytes
base64-encoded and `preserve_pitch` set to `options.preservePitch !== false`. -/
def voiceConversionPayload (audioBytes : List Nat) (targetSpeaker : String)
    (preservePitch : Option Bool) : List (String × JsonValue) :=
  [ ("source_audio", .str (arrayBufferToBase64 audioBytes)),
    ("target_speaker", .str targetSpeaker),
    ("preserve_pitch", .bool (match preservePitch with
      | some false => false
      | _ => true)) ]

/-! ## URL handling (constructor lines 4-11, `getAudioUrl` lines 114-119) -/

/-- api_client.js line 6: `baseUrl.replace(/\/$/, "")` removes one trailing
slash when the string ends with one.  JavaScript strings carrying URLs are
embedded as their character lists. -/
def stripTrailingSlash (s : List Char) : List Char :=
  if s.getLast? = some '/' then s.dropLast else s

/-- The client object: the constructor stores the normalized base URL. -/
structure VoiceAPIClient where
  baseUrl : List Char
deriving DecidableEq

/-- api_client.js lines 5-11: the constructor. -/
def mkClient (baseUrl : List Char) : VoiceAPIClient :=
  { baseUrl := stripTrailingSlash baseUrl }

/-- api_client.js line 17: the URL `request` fetches. -/
def requestUrl (c : VoiceAPIClient) (endpoint : List Char) : List Char :=
  c.baseUrl ++ endpoint

/-- api_client.js lines 114-119: locators starting with `/` are resolved
against the base URL, others returned as-is. -/
def getAudioUrl (c : VoiceAPIClient) (audioPath : List Char) : List Char :=
  if audioPath.head? = some '/' then c.baseUrl ++ audioPath else audioPath

/-- Whether a URL string ends in a double slash. -/
def endsWithDoubleSlash (s : List Char) : Bool :=
  s.getLast? == some '/' && s.dropLast.getLast? == some '/'

/-! ## Result-page state (TTSPage.jsx / VCPage.jsx lines 12-20) -/

/-- The response descriptor a page holds as its `result`. -/
structure OperationResult where
  audio_url : String
  processing_time : Rat
deriving DecidableEq

/-- The per-page `useState` pair `(result, error)`. -/
structure PageState where
  result : Option OperationResult
  error : String
deriving DecidableEq

/-- TTSPage.jsx / VCPage.jsx lines 8-9: initial state. -/
def initialPageState : PageState :=
  { result := none, error := "" }

/-- TTSPage.jsx / VCPage.jsx lines 12-15: `setResult(r); setError('')`. -/
def handleResult (st : PageState) (r : OperationResult) : PageState :=
  { st with result := some r, error := "" }

/-- TTSPage.jsx / VCPage.jsx lines 17-20: `setError(m); setResult(null)`. -/
def handleError (st : PageState) (message : String) : PageState :=
  { st with error := message, result := none }

/-- The two independent result slots: the TTS page's and the VC page's. -/
structure AppPagesState where
  tts : PageState
  vc : PageState
deriving DecidableEq

def initialAppPagesState : AppPagesState :=
  { tts := initialPageState, vc := initialPageState }

/-- The `handleResult` / `handleError` events of the two pages. -/
inductive PageEvent where
  | ttsResult (r : OperationResult)
  | ttsError (message : String)
  | vcResult (r : OperationResult)
  | vcError (message : String)

/-- Whether an event belongs to the TTS page. -/
def PageEvent.isTTS : PageEvent → Bool
  | .ttsResult _ => true
  | .ttsError _ => true
  | .vcResult _ => false
  | .vcError _ => false

/-- Each event updates only its own page's slot. -/
def stepPages (st : AppPagesState) (e : PageEvent) : AppPagesState :=
  match e with
  | .ttsResult r => { st with tts := handleResult st.tts r }
  | .ttsError m => { st with tts := handleError st.tts m }
  | .vcResult r => { st with vc := handleResult st.vc r }
  | .vcError m => { st with vc := handleError st.vc m }

/-- Run a sequence of page events. -/
def runPages (st : AppPagesState) (es : List PageEvent) : AppPagesState :=
  es.foldl stepPages st

/-- The per-slot invariant: `result` and `error` are never both set. -/
def pageInv (st : PageState) : Prop :=
  st.result = none ∨ st.error = ""

/-! ## Base64 helper lemmas -/

/-- Decoding a digit returns its six-bit value. -/
theorem b64Val_b64Char_fin : ∀ n : Fin 64, b64Val (b64Char n.val) = n.val := by
  decide

theorem b64Val_b64Char (n : Nat) (h : n < 64) : b64Val (b64Char n) = n :=
  b64Val_b64Char_fin ⟨n, h⟩

/-- No base64 digit is the padding character. -/
theorem b64Char_ne_pad_fin : ∀ n : Fin 64, b64Char n.val ≠ '=' := by
  decide

theorem b64Char_ne_pad (n : Nat) (h : n < 64) : b64Char n ≠ '=' :=
  b64Char_ne_pad_fin ⟨n, h⟩

/-- Round trip at the byte-list level: decoding an encoded byte list gives
back the bytes, for bytes in range. -/
theorem b64decodeList_b64encodeList :
    ∀ l : List Nat, (∀ b ∈ l, b < 256) → b64decodeList (b64encodeList l) = l
  | [], _ => rfl
  | [a], h => by
      have ha : a < 256 := h a (by simp)
      simp only [b64encodeList, b64decodeList]
      rw [if_pos trivial]
      rw [b64Val_b64Char _ (by omega), b64Val_b64Char _ (by omega)]
      simp only [List.cons.injEq, and_true]
      omega
  | [a, b], h => by
      have ha : a < 256 := h a (by simp)
      have hb : b < 256 := h b (by simp)
      simp only [b64encodeList, b64decodeList]
      rw [if_neg (b64Char_ne_pad _ (by omega)), if_pos trivial]
      rw [b64Val_b64Char _ (by omega), b64Val_b64Char _ (by omega),
          b64Val_b64Char _ (by omega)]
      simp only [List.cons.injEq, and_true]
      omega
  | a :: b :: c :: rest, h => by
      have ha : a < 256 := h a (by simp)
      have hb : b < 256 := h b (by simp)
      have hc : c < 256 := h c (by simp)
      have ih := b64decodeList_b64encodeList rest
        (fun x hx => h x (by simp [hx]))
      simp only [b64encodeList, b64decodeList]
      rw [if_neg (b64Char_ne_pad _ (by omega))]
      rw [if_neg (b64Char_ne_pad _ (by omega))]
      rw [b64Val_b64Char _ (by omega), b64Val_b64Char _ (by omega),
          b64Val_b64Char _ (by omega), b64Val_b64Char _ (by omega)]
      rw [ih]
      simp only [List.cons.injEq, and_true]
      omega

/-- Char codes survive the `String.fromCharCode` step for byte values. -/
theorem toNat_ofNat_byte (b : Nat) (h : b < 256) : (Char.ofNat b).toNat = b := by
  have hv : Nat.isValidChar b := Or.inl (by omega)
  simp only [Char.ofNat, hv, dite_true, dif_pos]
  rfl

/-! ## C1: base64 round trip -/

/-- C1: for every byte sequence up to the 50 MB ceiling, decoding the text
produced by `arrayBufferToBase64` reproduces the exact original byte
sequence, and encoding is deterministic (it is a pure function of the
bytes). -/
theorem arrayBufferToBase64_roundtrip (buffer : List Nat)
    (hsize : buffer.length ≤ sizeCeiling) (hbytes : ∀ b ∈ buffer, b < 256) :
    atobBytes (arrayBufferToBase64 buffer) = buffer ∧
      arrayBufferToBase64 buffer = arrayBufferToBase64 buffer := by
  refine ⟨?_, rfl⟩
  have hmap : (buffer.map Char.ofNat).map Char.toNat = buffer := by
    rw [List.map_map]
    have hcong : ∀ x ∈ buffer, (Char.toNat ∘ Char.ofNat) x = x := fun x hx =>
      toNat_ofNat_byte x (hbytes x hx)
    rw [List.map_congr_left hcong]
    exact List.map_id' buffer
  show b64decodeList (b64encodeList ((buffer.map Char.ofNat).map Char.toNat)) = buffer
  rw [hmap]
  exact b64decodeList_b64encodeList buffer hbytes

theorem arrayBufferToBase64_roundtrip_witness :
    atobBytes (arrayBufferToBase64 [0, 255, 10]) = [0, 255, 10] :=
  (arrayBufferToBase64_roundtrip [0, 255, 10] (by decide) (by decide)).1

/-! ## C2: request error shape and header merging -/

/-- C2 (divergence): with caller-supplied headers, the `...options` spread
overwrites the merged `headers` key, so the final `config.headers` is the
caller's object alone and the default `Content-Type` is discarded, while
the inner merge expression alone would have kept it. -/
theorem configHeaders_discards_defaults :
    configHeaders (some [("X-Custom", "1")]) = [("X-Custom", "1")] ∧
    lookupKey (configHeaders (some [("X-Custom", "1")])) "Content-Type" = none ∧
    lookupKey (objSpread defaultHeaders [("X-Custom", "1")]) "Content-Type"
      = some "application/json" := by
  exact ⟨rfl, rfl, rfl⟩

/-! ## C3: file validation -/

/-- C3: `validateFile` accepts exactly the files whose MIME type is in the
five-type allow-list and whose size is at most 50 MB, and a file that fails
validation is never selected nor handed to `onFileSelect`, so no network
call can follow. -/
theorem validateFile_spec (f : JSFile) (sel : Option JSFile) :
    (validateFile f = true ↔
      (validTypes.contains f.type = true ∧ f.size ≤ 50 * 1024 * 1024)) ∧
    (validateFile f = false → handleFileInput sel [f] = (sel, none)) := by
  constructor
  · unfold validateFile
    cases hc : validTypes.contains f.type with
    | false => simp [hc]
    | true =>
        simp [hc]
  · intro hf
    simp [handleFileInput, hf]

theorem validateFile_spec_witness :
    handleFileInput none [{ type := "text/plain", size := 10 }] = (none, none) :=
  (validateFile_spec { type := "text/plain", size := 10 } none).2 (by decide)

/-! ## C4: speed boundaries and clamping -/

/-- A rational at most an integer rounds to at most that integer. -/
theorem round_le_int {x : Rat} {n : Int} (hx : x ≤ (n : Rat)) : round x ≤ n := by
  by_contra hneg
  push_neg at hneg
  have h1 : ((n : Int) : Rat) + 1 ≤ ((round x : Int) : Rat) := by
    exact_mod_cast Int.add_one_le_iff.mpr hneg
  have h2 := round_le_add_half x
  linarith

/-- A rational at least an integer rounds to at least that integer. -/
theorem int_le_round {x : Rat} {n : Int} (hx : (n : Rat) ≤ x) : n ≤ round x := by
  by_contra hneg
  push_neg at hneg
  have h1 : ((round x : Int) : Rat) + 1 ≤ ((n : Int) : Rat) := by
    exact_mod_cast Int.add_one_le_iff.mpr hneg
  have h2 := sub_half_lt_round x
  linarith

/-- Every sanitized value of the speed range input lies in the inclusive
range min - max. -/
theorem speedRangeValue_bounds (r : Rat) :
    ttsSpeedMin ≤ speedRangeValue r ∧ speedRangeValue r ≤ ttsSpeedMax := by
  unfold speedRangeValue ttsSpeedMin ttsSpeedMax ttsSpeedStep
  have h1 : (1 : Rat) / 2 ≤ max (1 / 2) (min 2 r) := le_max_left _ _
  have h2 : max (1 / 2 : Rat) (min 2 r) ≤ 2 :=
    max_le (by norm_num) (min_le_left _ _)
  have hq0 : (0 : Rat) ≤ (max (1 / 2) (min 2 r) - 1 / 2) / (1 / 10) :=
    div_nonneg (by linarith) (by norm_num)
  have hq15 : (max (1 / 2 : Rat) (min 2 r) - 1 / 2) / (1 / 10) ≤ 15 := by
    rw [div_le_iff₀ (by norm_num : (0 : Rat) < 1 / 10)]
    linarith
  have hk0 : (0 : Int) ≤ round ((max (1 / 2 : Rat) (min 2 r) - 1 / 2) / (1 / 10)) :=
    int_le_round (by exact_mod_cast hq0)
  have hk15 : round ((max (1 / 2 : Rat) (min 2 r) - 1 / 2) / (1 / 10)) ≤ (15 : Int) :=
    round_le_int (by exact_mod_cast hq15)
  have hc0 : (0 : Rat)
      ≤ ((round ((max (1 / 2 : Rat) (min 2 r) - 1 / 2) / (1 / 10)) : Int) : Rat) := by
    exact_mod_cast hk0
  have hc15 : ((round ((max (1 / 2 : Rat) (min 2 r) - 1 / 2) / (1 / 10)) : Int) : Rat)
      ≤ 15 := by
    exact_mod_cast hk15
  constructor
  · nlinarith
  · nlinarith

/-- C4: the speed the TTS form submits comes from its range input with
min 0.5, max 2.0: the boundary values 0.5 and 2.0 are on the grid
(sanitized to themselves) and pass through `textToSpeech` unchanged; the
out-of-range values 0.4 and 2.1 are clamped to 0.5 and 2.0 before
submission; every sanitized value lies in the inclusive range; and every
in-range speed is submitted to the backend unchanged. -/
theorem ttsSpeed_boundaries_and_clamp (t : String) :
    speedRangeValue (1 / 2) = 1 / 2 ∧
    speedRangeValue 2 = 2 ∧
    (textToSpeechPayload t { speed := some (1 / 2) }).speed = 1 / 2 ∧
    (textToSpeechPayload t { speed := some 2 }).speed = 2 ∧
    speedRangeValue (2 / 5) = 1 / 2 ∧
    speedRangeValue (21 / 10) = 2 ∧
    (∀ r : Rat, ttsSpeedMin ≤ speedRangeValue r ∧ speedRangeValue r ≤ ttsSpeedMax) ∧
    (∀ s : Rat, ttsSpeedMin ≤ s → s ≤ ttsSpeedMax →
      (textToSpeechPayload t { speed := some s }).speed = s) := by
  refine ⟨?_, ?_, ?_, ?_, ?_, ?_, speedRangeValue_bounds, ?_⟩
  · norm_num [speedRangeValue, ttsSpeedMin, ttsSpeedMax, ttsSpeedStep,
      max_def, min_def, round_zero]
  · norm_num [speedRangeValue, ttsSpeedMin, ttsSpeedMax, ttsSpeedStep,
      max_def, min_def, round_ofNat]
  · norm_num [textToSpeechPayload, orDefaultNum]
  · norm_num [textToSpeechPayload, orDefaultNum]
  · norm_num [speedRangeValue, ttsSpeedMin, ttsSpeedMax, ttsSpeedStep,
      max_def, min_def, round_zero]
  · norm_num [speedRangeValue, ttsSpeedMin, ttsSpeedMax, ttsSpeedStep,
      max_def, min_def, round_ofNat]
  · intro s h1 h2
    have hmin : ttsSpeedMin = 1 / 2 := rfl
    have hs0 : s ≠ 0 := by
      intro h0
      rw [hmin, h0] at h1
      norm_num at h1
    simp [textToSpeechPayload, orDefaultNum, hs0]

theorem ttsSpeed_boundaries_and_clamp_witness :
    (textToSpeechPayload "hello" { speed := some 1 }).speed = 1 :=
  (ttsSpeed_boundaries_and_clamp "hello").2.2.2.2.2.2.2 1
    (by norm_num [ttsSpeedMin]) (by norm_num [ttsSpeedMax])

/-! ## C5: profile-loading failure -/

/-- C5 (counterexample): on a failing fetch, `getProfiles` returns the
uniform error object, not an object carrying an empty profiles sequence;
with the profile list left empty, VC submission is refused for lack of a
target speaker even when a source file is selected. -/
theorem getProfiles_failure_counterexample :
    getProfiles (.networkError "Failed to fetch")
        = .errorObject "Failed to fetch" ∧
    profilesOf (getProfiles (.networkError "Failed to fetch")) ≠ some [] ∧
    vcHandleSubmitGuard
        { loadProfiles initialVCFormState
            (getProfiles (.networkError "Failed to fetch")) with
          sourceFile := some { type := "audio/wav", size := 1000 } }
      = some "Please select a target speaker" := by
  exact ⟨rfl, by decide, by decide⟩

/-- C5 (amended): a failing profiles fetch (network error or non-2xx)
yields the uniform error object; `loadProfiles` then leaves the form state
unchanged, so the profile list stays empty and no blocking error is
raised, and a TTS payload built without options still carries the default
speaker id. -/
theorem profilesFailure_degrades_gracefully (m t : String) (st : VCFormState)
    (r : FetchResponse ProfilesBody) (hr : r.ok = false) :
    getProfiles (.networkError m) = .errorObject m ∧
    loadProfiles st (getProfiles (.networkError m)) = st ∧
    loadProfiles st (getProfiles (.response r)) = st ∧
    (loadProfiles initialVCFormState (getProfiles (.networkError m))).profiles
        = [] ∧
    (textToSpeechPayload t {}).speaker_id = "default" := by
  refine ⟨rfl, rfl, ?_, rfl, rfl⟩
  simp [getProfiles, request, hr, loadProfiles, profilesOf]

theorem profilesFailure_degrades_gracefully_witness :
    loadProfiles initialVCFormState
        (getProfiles (.response
          { ok := false, status := 500, statusText := "Internal Server Error",
            json := Except.error "boom" }))
      = initialVCFormState :=
  (profilesFailure_degrades_gracefully "x" "y" initialVCFormState
    { ok := false, status := 500, statusText := "Internal Server Error",
      json := Except.error "boom" } rfl).2.2.1

/-! ## C6: TTS payload defaults -/

/-- C6 (counterexample): a caller-supplied empty speaker id is falsy, so
the payload carries the default instead of the supplied value. -/
theorem ttsPayload_empty_speaker_counterexample :
    (textToSpeechPayload "hello" { speakerId := some "" }).speaker_id
        = "default" ∧
    (textToSpeechPayload "hello" { speakerId := some "" }).speaker_id ≠ "" := by
  exact ⟨rfl, by decide⟩

/-- C6 (amended): unset option fields produce the defaults
`speaker_id = "default"`, `language = "zh"`, `speed = 1.0`; supplied fields
are used instead of the defaults unless the supplied value is falsy (the
empty string, or 0 for speed), in which case the JavaScript `||` falls back
to the default. -/
theorem ttsPayload_defaults (text : String) (opts : TTSOptions) :
    (textToSpeechPayload text opts).text = text ∧
    (opts.speakerId = none →
      (textToSpeechPayload text opts).speaker_id = "default") ∧
    (opts.language = none → (textToSpeechPayload text opts).language = "zh") ∧
    (opts.speed = none → (textToSpeechPayload text opts).speed = 1) ∧
    (∀ s, opts.speakerId = some s → s ≠ "" →
      (textToSpeechPayload text opts).speaker_id = s) ∧
    (∀ s, opts.language = some s → s ≠ "" →
      (textToSpeechPayload text opts).language = s) ∧
    (∀ q, opts.speed = some q → q ≠ 0 →
      (textToSpeechPayload text opts).speed = q) := by
  refine ⟨rfl, ?_, ?_, ?_, ?_, ?_, ?_⟩
  · intro h
    simp [textToSpeechPayload, orDefaultStr, h]
  · intro h
    simp [textToSpeechPayload, orDefaultStr, h]
  · intro h
    simp [textToSpeechPayload, orDefaultNum, h]
  · intro s hs hne
    simp [textToSpeechPayload, orDefaultStr, hs, hne]
  · intro s hs hne
    simp [textToSpeechPayload, orDefaultStr, hs, hne]
  · intro q hq hne
    simp [textToSpeechPayload, orDefaultNum, hq, hne]

theorem ttsPayload_defaults_witness :
    (textToSpeechPayload "hi" { speakerId := some "alice" }).speaker_id
      = "alice" :=
  (ttsPayload_defaults "hi" { speakerId := some "alice" }).2.2.2.2.1 "alice"
    rfl (by decide)

/-! ## C7: audio locator resolution -/

/-- C7: `getAudioUrl` returns the base URL concatenated with the locator
when the locator begins with `/`, and the locator unchanged otherwise. -/
theorem getAudioUrl_resolution (c : VoiceAPIClient) (p : List Char) :
    (p.head? = some '/' → getAudioUrl c p = c.baseUrl ++ p) ∧
    (p.head? ≠ some '/' → getAudioUrl c p = p) := by
  constructor
  · intro h
    simp [getAudioUrl, h]
  · intro h
    simp [getAudioUrl, h]

theorem getAudioUrl_resolution_witness :
    getAudioUrl (mkClient ("http://localhost:8000").toList)
        ("/outputs/a.wav").toList
      = (mkClient ("http://localhost:8000").toList).baseUrl
        ++ ("/outputs/a.wav").toList :=
  (getAudioUrl_resolution _ _).1 (by decide)

/-! ## C8: preserve_pitch flag -/

/-- The `preserve_pitch` entry of the VC payload is always present and
holds `options.preservePitch !== false`. -/
theorem lookup_preserve_pitch (bytes : List Nat) (target : String)
    (pp : Option Bool) :
    lookupKey (voiceConversionPayload bytes target pp) "preserve_pitch"
      = some (.bool (match pp with
          | some false => false
          | _ => true)) := rfl

/-- C8: every VC payload carries an explicit boolean `preserve_pitch` key,
equal to `true` unless the caller passed `preservePitch = false`. -/
theorem vcPayload_preserve_pitch (bytes : List Nat) (target : String)
    (pp : Option Bool) :
    (∃ b : Bool,
      lookupKey (voiceConversionPayload bytes target pp) "preserve_pitch"
        = some (.bool b)) ∧
    (pp ≠ some false →
      lookupKey (voiceConversionPayload bytes target pp) "preserve_pitch"
        = some (.bool true)) ∧
    (pp = some false →
      lookupKey (voiceConversionPayload bytes target pp) "preserve_pitch"
        = some (.bool false)) := by
  refine ⟨⟨_, lookup_preserve_pitch bytes target pp⟩, ?_, ?_⟩
  · intro h
    rw [lookup_preserve_pitch]
    rcases pp with _ | b
    · rfl
    · cases b
      · exact absurd rfl h
      · rfl
  · intro h
    rw [h, lookup_preserve_pitch]

theorem vcPayload_preserve_pitch_witness :
    lookupKey (voiceConversionPayload [1, 2] "speaker_001" none)
        "preserve_pitch"
      = some (.bool true) :=
  (vcPayload_preserve_pitch [1, 2] "speaker_001" none).2.1 (by decide)

/-! ## C9: result-slot invariant -/

/-- One page event preserves the two slot invariants. -/
theorem stepPages_inv (st : AppPagesState) (e : PageEvent)
    (h : pageInv st.tts ∧ pageInv st.vc) :
    pageInv (stepPages st e).tts ∧ pageInv (stepPages st e).vc := by
  cases e with
  | ttsResult r => exact ⟨Or.inr rfl, h.2⟩
  | ttsError m => exact ⟨Or.inl rfl, h.2⟩
  | vcResult r => exact ⟨h.1, Or.inr rfl⟩
  | vcError m => exact ⟨h.1, Or.inl rfl⟩

/-- Any run of page events preserves the two slot invariants. -/
theorem runPages_inv :
    ∀ (es : List PageEvent) (st : AppPagesState),
      pageInv st.tts ∧ pageInv st.vc →
      pageInv (runPages st es).tts ∧ pageInv (runPages st es).vc
  | [], _, h => h
  | e :: es, st, h => runPages_inv es (stepPages st e) (stepPages_inv st e h)

/-- C9: in every state reachable from the initial pages state by
`handleResult` / `handleError` events, `result` and `error` are never both
set; `handleResult` installs the new result and clears the error,
`handleError` installs the error and clears the result; and each event
leaves the other page's slot untouched. -/
theorem pageSlots_invariant (es : List PageEvent) :
    pageInv (runPages initialAppPagesState es).tts ∧
    pageInv (runPages initialAppPagesState es).vc ∧
    (∀ (st : PageState) (r : OperationResult),
      (handleResult st r).result = some r ∧ (handleResult st r).error = "") ∧
    (∀ (st : PageState) (m : String),
      (handleError st m).error = m ∧ (handleError st m).result = none) ∧
    (∀ (st : AppPagesState) (e : PageEvent),
      e.isTTS = true → (stepPages st e).vc = st.vc) ∧
    (∀ (st : AppPagesState) (e : PageEvent),
      e.isTTS = false → (stepPages st e).tts = st.tts) := by
  have hinv := runPages_inv es initialAppPagesState ⟨Or.inl rfl, Or.inl rfl⟩
  refine ⟨hinv.1, hinv.2, fun st r => ⟨rfl, rfl⟩, fun st m => ⟨rfl, rfl⟩, ?_, ?_⟩
  · intro st e he
    cases e with
    | ttsResult r => rfl
    | ttsError m => rfl
    | vcResult r => exact Bool.noConfusion he
    | vcError m => exact Bool.noConfusion he
  · intro st e he
    cases e with
    | ttsResult r => exact Bool.noConfusion he
    | ttsError m => exact Bool.noConfusion he
    | vcResult r => rfl
    | vcError m => rfl

theorem pageSlots_invariant_witness :
    pageInv (runPages initialAppPagesState
        [PageEvent.ttsResult { audio_url := "/outputs/a.wav", processing_time := 1 },
         PageEvent.ttsError "boom"]).tts ∧
    (stepPages initialAppPagesState
        (PageEvent.ttsResult
          { audio_url := "/outputs/a.wav", processing_time := 1 })).vc
      = initialAppPagesState.vc :=
  ⟨(pageSlots_invariant
      [PageEvent.ttsResult { audio_url := "/outputs/a.wav", processing_time := 1 },
       PageEvent.ttsError "boom"]).1,
   (pageSlots_invariant []).2.2.2.2.1 initialAppPagesState
     (PageEvent.ttsResult { audio_url := "/outputs/a.wav", processing_time := 1 })
     rfl⟩

/-! ## C10: base-URL normalization -/

/-- C10 (counterexample): the base `"a/"` does not end in a double slash,
yet the clients built from it and from it plus one more trailing slash
resolve the same locator to different URLs, the second with a double slash
at the join point. -/
theorem mkClient_trailing_slash_counterexample :
    endsWithDoubleSlash ("a/").toList = false ∧
    getAudioUrl (mkClient ("a/").toList) ("/p").toList = ("a/p").toList ∧
    getAudioUrl (mkClient (("a/").toList ++ ("/").toList)) ("/p").toList
      = ("a//p").toList ∧
    ("a/p").toList ≠ ("a//p").toList := by
  exact ⟨by decide, by decide, by decide, by decide⟩

/-- C10 (amended): the constructor strips exactly one trailing slash
(`mkClient (b ++ "/")` stores base `b`); for every base not already ending
in `/`, the clients built from `b` and from `b ++ "/"` coincide, hence
produce identical request and audio URLs; for every base not ending in
`//`, the stored base does not end in `/`, so joining it with a locator
that begins with `/` puts no double slash at the join point. -/
theorem mkClient_normalization (b p ep : List Char) :
    stripTrailingSlash (b ++ [ '/' ]) = b ∧
    (b.getLast? ≠ some '/' →
      mkClient (b ++ [ '/' ]) = mkClient b ∧
      requestUrl (mkClient (b ++ [ '/' ])) ep = requestUrl (mkClient b) ep ∧
      getAudioUrl (mkClient (b ++ [ '/' ])) p = getAudioUrl (mkClient b) p) ∧
    (endsWithDoubleSlash b = false →
      (mkClient b).baseUrl.getLast? ≠ some '/') ∧
    (p.head? = some '/' →
      getAudioUrl (mkClient b) p = (mkClient b).baseUrl ++ p) := by
  have hstrip : stripTrailingSlash (b ++ [ '/' ]) = b := by
    have hlast : (b ++ [ '/' ]).getLast? = some '/' := List.getLast?_concat _
    simp [stripTrailingSlash, hlast]
  refine ⟨hstrip, ?_, ?_, ?_⟩
  · intro hb
    have hsb : stripTrailingSlash b = b := by
      simp [stripTrailingSlash, hb]
    have hm : mkClient (b ++ [ '/' ]) = mkClient b := by
      simp [mkClient, hstrip, hsb]
    exact ⟨hm, by rw [hm], by rw [hm]⟩
  · intro hd
    by_cases hb : b.getLast? = some '/'
    · simp only [endsWithDoubleSlash, hb, beq_self_eq_true, Bool.true_and,
        beq_eq_false_iff_ne, ne_eq] at hd
      simp [mkClient, stripTrailingSlash, hb]
      exact hd
    · simp [mkClient, stripTrailingSlash, hb]
  · intro hp
    simp [getAudioUrl, hp]

theorem mkClient_normalization_witness :
    mkClient (("http://x").toList ++ [ '/' ]) = mkClient ("http://x").toList ∧
    getAudioUrl (mkClient ("http://x").toList) ("/p").toList
      = (mkClient ("http://x").toList).baseUrl ++ ("/p").toList :=
  ⟨((mkClient_normalization ("http://x").toList [] []).2.1 (by decide)).1,
   (mkClient_normalization ("http://x").toList ("/p").toList []).2.2.2
     (by decide)⟩

end VoiceApp
